import Mathlib

/-!
Shallow embedding of the Date-Time-Range-Picker core: the timezone-instant
resolution engine (`src/utils/timezone.ts`) and the constraint-validation
engine (`src/utils/constraints.ts`, together with its helpers from
`src/utils/date.ts`).

Instants are modelled as `Int` millisecond counts since the Unix epoch,
exactly the value of a JavaScript `Date`.  JavaScript `Math.floor` division
and the ECMAScript `modulo` operation (always-nonnegative remainder) are
modelled with the Lean `Int` operators `/` and `%`, which are floor division and
nonnegative remainder for the positive divisors used throughout.
The `Intl.DateTimeFormat` timezone oracle is an explicit function parameter
`fmt : Int → Civil`; the UTC oracle `civilOfInstant` below implements the
ECMAScript `getUTCFullYear`/`getUTCMonth`/... field extraction.
-/

namespace DTRP

/-- Milliseconds per minute. -/
def msPerMinute : Int := 60000

/-- Milliseconds per hour. -/
def msPerHour : Int := 3600000

/-- Milliseconds per day. -/
def msPerDay : Int := 86400000

/-- A civil wall-clock date-time down to minutes, with the 0-based month
convention of JavaScript `Date` (January = 0), as used by
`createDateInTimezone` after the `parseInt(...) - 1` adjustment. -/
structure Civil where
  year : Int
  month : Int
  day : Int
  hour : Int
  minute : Int
deriving DecidableEq, Repr

/-- Day count since 1970-01-01 for a civil date with 1-based month `m`.
This is the civil-calendar arithmetic behind ECMAScript `MakeDay`
(proleptic Gregorian); `d` may be out of range and is folded in linearly,
exactly as `Date.UTC` does. -/
def daysFromCivil (y m d : Int) : Int :=
  let yy := if m ≤ 2 then y - 1 else y
  let era := yy / 400
  let yoe := yy - era * 400
  let mp := (m + 9) % 12
  let doy := (153 * mp + 2) / 5 + d - 1
  let doe := yoe * 365 + yoe / 4 - yoe / 100 + doy
  era * 146097 + doe - 719468

/-- Inverse of `daysFromCivil`: the (year, 1-based month, day) shown by the
UTC getters of JavaScript `Date` for a given day number. -/
def civilFromDays (z : Int) : Int × Int × Int :=
  let z2 := z + 719468
  let era := z2 / 146097
  let doe := z2 % 146097
  let yoe := (doe - doe / 1460 + doe / 36524 - doe / 146096) / 365
  let y := yoe + era * 400
  let doy := doe - (365 * yoe + yoe / 4 - yoe / 100)
  let mp := (5 * doy + 2) / 153
  let d := doy - (153 * mp + 2) / 5 + 1
  let m := if mp < 10 then mp + 3 else mp - 9
  (if m ≤ 2 then y + 1 else y, m, d)

/-- Model of `Date.UTC(year, month, day, hour, minute)` for integer arguments:
month overflow is folded into the year and day/hour/minute are folded in
linearly (ECMAScript `MakeDay`/`MakeTime`/`MakeDate`).  `month` is 0-based. -/
def dateUTC (year month day hour minute : Int) : Int :=
  msPerDay * daysFromCivil (year + month / 12) (month % 12 + 1) day +
    msPerHour * hour + msPerMinute * minute

/-- ECMAScript `HourFromTime`. -/
def getUTCHours (t : Int) : Int := (t / msPerHour) % 24

/-- ECMAScript `MinFromTime`. -/
def getUTCMinutes (t : Int) : Int := (t / msPerMinute) % 60

/-- The UTC offset oracle: the civil fields that `Intl.DateTimeFormat` with
`timeZone: "UTC"` (equivalently, the `getUTC*` methods) shows for an
instant.  The month is 0-based, matching the `- 1` adjustment applied to
the formatter output in `createDateInTimezone`. -/
def civilOfInstant (t : Int) : Civil :=
  let p := civilFromDays (t / msPerDay)
  ⟨p.1, p.2.1 - 1, p.2.2, getUTCHours t, getUTCMinutes t⟩

/-- The six-field lexicographic comparison computed at the bottom of the
bisection loop of `createDateInTimezone` (timezone.ts lines 102-107):
-1, 0 or 1. -/
def civilCompare (a b : Civil) : Int :=
  if a.year ≠ b.year then (if a.year < b.year then -1 else 1)
  else if a.month ≠ b.month then (if a.month < b.month then -1 else 1)
  else if a.day ≠ b.day then (if a.day < b.day then -1 else 1)
  else if a.hour ≠ b.hour then (if a.hour < b.hour then -1 else 1)
  else if a.minute ≠ b.minute then (if a.minute < b.minute then -1 else 1)
  else 0

/-- The `for (let i = 0; i < 20; i++)` bisection loop of
`createDateInTimezone`, with the iteration count as fuel.  `best` is the
`bestDate` variable: it is returned when the fuel runs out and is replaced
by the midpoint only on an exact five-field match (which `break`s). -/
def bisectLoop (fmt : Int → Civil) (target : Civil) :
    Nat → Int → Int → Int → Int
  | 0, _, _, best => best
  | n + 1, low, high, best =>
    let mid := (low + high) / 2
    if fmt mid = target then mid
    else if civilCompare (fmt mid) target < 0 then
      bisectLoop fmt target n (mid + 1) high best
    else
      bisectLoop fmt target n low (mid - 1) best

/-- The midpoints probed by `bisectLoop`, in order (the `testDate` values).
Same control flow as `bisectLoop`; used to reason about which instants the
search actually inspected. -/
def bisectProbes (fmt : Int → Civil) (target : Civil) :
    Nat → Int → Int → List Int
  | 0, _, _ => []
  | n + 1, low, high =>
    let mid := (low + high) / 2
    if fmt mid = target then [mid]
    else if civilCompare (fmt mid) target < 0 then
      mid :: bisectProbes fmt target n (mid + 1) high
    else
      mid :: bisectProbes fmt target n low (mid - 1)

/-- Model of `createDateInTimezone(year, month, day, hour, minute, timezone)`
(timezone.ts lines 58-117), with the `Intl.DateTimeFormat`
oracle abstracted as `fmt`.  Seeds the search with the naive UTC reading of
the civil fields and bisects a ±24 h window around it. -/
def createDateInTimezone (fmt : Int → Civil)
    (year month day hour minute : Int) : Int :=
  let rough := dateUTC year month day hour minute
  bisectLoop fmt ⟨year, month, day, hour, minute⟩ 20
    (rough - 24 * 60 * 60 * 1000) (rough + 24 * 60 * 60 * 1000) rough

/-- The probed midpoints of a `createDateInTimezone` run. -/
def createProbes (fmt : Int → Civil)
    (year month day hour minute : Int) : List Int :=
  let rough := dateUTC year month day hour minute
  bisectProbes fmt ⟨year, month, day, hour, minute⟩ 20
    (rough - 24 * 60 * 60 * 1000) (rough + 24 * 60 * 60 * 1000)

/-- The forward mapping instant → civil-in-zone: direct formatting through
the oracle, as done by the formatter extraction in `convertToTimezone`
(timezone.ts lines 33-39) and `formatDateInTimezone`. -/
def instantToCivil (fmt : Int → Civil) (t : Int) : Civil := fmt t

/-- The 2024 US spring-forward transition instant in America/New_York:
2024-03-10T07:00:00Z (02:00 EST jumps to 03:00 EDT). -/
def nyTransition2024 : Int := dateUTC 2024 2 10 7 0

/-- Concrete offset oracle for America/New_York around the 2024
spring-forward transition: UTC-5 strictly before the transition instant,
UTC-4 from it on (the historically accurate IANA rule for that window). -/
def fmtNewYork2024 (t : Int) : Civil :=
  if t < nyTransition2024 then civilOfInstant (t - 5 * msPerHour)
  else civilOfInstant (t - 4 * msPerHour)

/-! ## Constraint validation (`src/utils/constraints.ts`, `src/utils/date.ts`) -/

/-- A JavaScript number restricted to the values produced by `Number` on
time-component strings: an integer or `NaN`.  Every ordering comparison
against `NaN` is false, as in IEEE/JS semantics. -/
inductive JSNum where
  | nan : JSNum
  | num : Int → JSNum
deriving DecidableEq, Repr

/-- JS `a < b` with an integer left operand. -/
def jsLt (a : Int) : JSNum → Bool
  | .nan => false
  | .num v => decide (a < v)

/-- JS `a > b` with an integer left operand. -/
def jsGt (a : Int) : JSNum → Bool
  | .nan => false
  | .num v => decide (a > v)

/-- JS `a === b` with an integer left operand. -/
def jsEq (a : Int) : JSNum → Bool
  | .nan => false
  | .num v => decide (a = v)

/-- Model of `String.prototype.split` with a one-character separator, on the
character list of the string (structural recursion; JS `"".split(sep)` is
`[""]`, and adjacent separators produce empty fields). -/
def splitChar (sep : Char) : List Char → List (List Char)
  | [] => [[]]
  | c :: rest =>
    match splitChar sep rest with
    | [] => [[c]]
    | hd :: tl => if c = sep then [] :: hd :: tl else (c :: hd) :: tl

/-- Accumulate a decimal numeral; any non-digit character yields `none`.
The empty list yields `some 0`, matching JS `Number("") === 0`. -/
def natOfDigits (l : List Char) : Option Nat :=
  l.foldl
    (fun acc c =>
      match acc with
      | some n => if c.isDigit then some (n * 10 + (c.toNat - 48)) else none
      | none => none)
    (some 0)

/-- JS `Number(s)` for the strings reaching `parseTime`: the empty string
is 0, a string of decimal digits is its value, anything else is `NaN`.
(Signs, decimals and whitespace never occur in `HH:mm` time strings.) -/
def stringToNumber (l : List Char) : JSNum :=
  match natOfDigits l with
  | some n => .num n
  | none => .nan

/-- Model of `parseTime` (date.ts lines 70-73): split on `":"`, convert each part
with `Number`, and default a missing component to 0 (`?? 0` replaces only
a missing part, not a `NaN` one). -/
def parseTime (s : String) : JSNum × JSNum :=
  let parts := (splitChar ':' s.data).map stringToNumber
  ((parts[0]?).getD (.num 0), (parts[1]?).getD (.num 0))

/-- The `type` tag of a `ValidationError` (types.ts).  The `message` field
is presentation text and not part of the validation contract, so it is not
modelled. -/
inductive ValErrType where
  | min_date | max_date | min_time | max_time
  | blackout | min_duration | max_duration | invalid_range
deriving DecidableEq, Repr

/-- Model of `DateTimeRange` (types.ts): either endpoint may be `null`.  The `end`
field is spelled `end_` because `end` is a Lean keyword. -/
structure DateTimeRange where
  start : Option Int
  end_ : Option Int

/-- Model of `ConstraintConfig` (types.ts): every field optional.  `minDuration` and
`maxDuration` are JS numbers, modelled as rationals so that the fractional
minute duration comparison is exact. -/
structure ConstraintConfig where
  minDate : Option Int
  maxDate : Option Int
  minTime : Option String
  maxTime : Option String
  blackoutDates : Option (List Int)
  minDuration : Option ℚ
  maxDuration : Option ℚ

/-- The empty constraint object `{}`. -/
def noConstraints : ConstraintConfig := ⟨none, none, none, none, none, none, none⟩

/-- Model of `startOfDay` (date.ts lines 8-12): zero the UTC time-of-day fields,
i.e. round down to the UTC day boundary. -/
def startOfDay (t : Int) : Int := msPerDay * (t / msPerDay)

/-- Model of `isSameDay` (date.ts lines 26-32): equal `getUTCFullYear`,
`getUTCMonth` and `getUTCDate`. -/
def isSameDay (t1 t2 : Int) : Bool :=
  decide (civilFromDays (t1 / msPerDay) = civilFromDays (t2 / msPerDay))

/-- Model of `isBlackedOut` (constraints.ts lines 11-14): an absent blackout list
blacks out nothing; otherwise membership by `isSameDay`. -/
def isBlackedOut (date : Int) : Option (List Int) → Bool
  | none => false
  | some blackoutDates => blackoutDates.any (isSameDay date)

/-- The `while (currentDate <= endDate)` day-stepping loop of
`validateRange` (constraints.ts lines 64-74): scan every UTC day from
`cur` to `endD` inclusive, stepping by one day (`setUTCDate(+1)` on a UTC
midnight is exactly +86400000 ms). -/
def blackoutScan (blackoutDates : List Int) (cur endD : Int) : Bool :=
  if _h : cur ≤ endD then
    if isBlackedOut cur (some blackoutDates) then true
    else blackoutScan blackoutDates (cur + msPerDay) endD
  else false
termination_by (endD + msPerDay - cur).toNat
decreasing_by simp only [msPerDay] at *; omega

/-- The blackout section of `validateRange` (constraints.ts lines 44-75):
start day, end day, then every day of the range; collapsed to whether any
of the three `blackout` returns fires. -/
def checkBlackout (start end_ : Int) : Option (List Int) → Bool
  | none => false
  | some blackoutDates =>
    isBlackedOut start (some blackoutDates) ||
    isBlackedOut end_ (some blackoutDates) ||
    blackoutScan blackoutDates (startOfDay start) (startOfDay end_)

/-- The quantity `(end.getTime() - start.getTime()) / (1000 * 60)` as an exact rational. -/
def durationMinutes (start end_ : Int) : ℚ := ((end_ - start : Int) : ℚ) / (1000 * 60)

/-- The `minTime` section of `validateRange` (constraints.ts lines
103-117).  A `minTime` present but equal to `""` is falsy in JS and skips
the check; a `NaN` component makes every comparison false. -/
def minTimeViolated (start : Int) : Option String → Bool
  | none => false
  | some s =>
    if s = "" then false
    else
      jsLt (getUTCHours start) (parseTime s).1 ||
        (jsEq (getUTCHours start) (parseTime s).1 &&
          jsLt (getUTCMinutes start) (parseTime s).2)

/-- The `maxTime` section of `validateRange` (constraints.ts lines
119-133). -/
def maxTimeViolated (end_ : Int) : Option String → Bool
  | none => false
  | some s =>
    if s = "" then false
    else
      jsGt (getUTCHours end_) (parseTime s).1 ||
        (jsEq (getUTCHours end_) (parseTime s).1 &&
          jsGt (getUTCMinutes end_) (parseTime s).2)

/-- The test `constraints.minDate && start < constraints.minDate` (a `Date` is
always truthy, so presence is the only truthiness question). -/
def belowMinDate (start : Int) : Option Int → Bool
  | none => false
  | some m => decide (start < m)

/-- The test `constraints.maxDate && end > constraints.maxDate`. -/
def aboveMaxDate (end_ : Int) : Option Int → Bool
  | none => false
  | some m => decide (end_ > m)

/-- The test `constraints.minDuration !== undefined && durationMinutes < constraints.minDuration`. -/
def belowMinDuration (start end_ : Int) : Option ℚ → Bool
  | none => false
  | some m => decide (durationMinutes start end_ < m)

/-- The test `constraints.maxDuration !== undefined && durationMinutes > constraints.maxDuration`. -/
def aboveMaxDuration (start end_ : Int) : Option ℚ → Bool
  | none => false
  | some m => decide (durationMinutes start end_ > m)

/-- Model of `validateRange` (constraints.ts lines 19-136): `null` for a partial
range, otherwise the first violated rule in the if-return order of the source. -/
def validateRange (range : DateTimeRange) (constraints : ConstraintConfig) :
    Option ValErrType :=
  match range.start, range.end_ with
  | some start, some end_ =>
    if belowMinDate start constraints.minDate then some .min_date
    else if aboveMaxDate end_ constraints.maxDate then some .max_date
    else if checkBlackout start end_ constraints.blackoutDates then some .blackout
    else if start ≥ end_ then some .invalid_range
    else if belowMinDuration start end_ constraints.minDuration then some .min_duration
    else if aboveMaxDuration start end_ constraints.maxDuration then some .max_duration
    else if minTimeViolated start constraints.minTime then some .min_time
    else if maxTimeViolated end_ constraints.maxTime then some .max_time
    else none
  | _, _ => none

/-- Model of `isDateDisabled` (constraints.ts lines 141-155). -/
def isDateDisabled (date : Int) (constraints : ConstraintConfig) : Bool :=
  if belowMinDate date constraints.minDate then true
  else if aboveMaxDate date constraints.maxDate then true
  else if isBlackedOut date constraints.blackoutDates then true
  else false

/-- The civil fields read as a UTC timeline position, in milliseconds:
used to measure how far apart two civil wall-clock readings are. -/
def civilToMs (c : Civil) : Int := dateUTC c.year c.month c.day c.hour c.minute

/-- A civil reading `c` occurs *exactly once* for the oracle `fmt` inside
the window `[L, H]`: the full civil minute of instants reading `c` (an
interval of at least 60 000 ms) lies inside the window, every earlier
instant of the window reads lexicographically below `c` and every later
one above `c`.  Only the *sign* of the comparison against `c` is
constrained, not monotonicity of the oracle itself, so this covers every
once-occurring civil time even when the window contains a DST transition:
with no transition the readings increase throughout; across a
spring-forward jump the readings still increase (they skip ahead); and
across a fall-back jump a reading `c` outside the repeated interval still
has all readings below it on one side and above it on the other (the
repeated readings are all on one side of `c`).  A spring-forward gap
reading has no plateau at all and is excluded. -/
def SingleOccurrenceInWindow (fmt : Int → Civil) (L H : Int) (c : Civil) : Prop :=
  ∃ a b : Int,
    L ≤ a ∧ a ≤ b ∧ b ≤ H ∧ 59999 ≤ b - a ∧
    (∀ t, a ≤ t → t ≤ b → fmt t = c) ∧
    (∀ t, L ≤ t → t < a → civilCompare (fmt t) c < 0) ∧
    (∀ t, b < t → t ≤ H → 0 < civilCompare (fmt t) c)

/-- A civil reading `c` that occurs *twice* inside the window `[L, H]`
(fall-back overlap): two full civil minutes `[a1, b1]` and `[a2, b2]` of
instants reading `c`, a backward jump at some instant `M` between them,
and the oracle reading below `c` before each occurrence and above `c`
after each occurrence.  This is the sign structure of a real fall-back
transition containing the repeated civil time `c`. -/
def FallBackOverlapInWindow (fmt : Int → Civil) (L H : Int) (c : Civil) : Prop :=
  ∃ a1 b1 M a2 b2 : Int,
    L ≤ a1 ∧ a1 ≤ b1 ∧ 59999 ≤ b1 - a1 ∧ b1 < M ∧ M ≤ a2 ∧ a2 ≤ b2 ∧
    59999 ≤ b2 - a2 ∧ b2 ≤ H ∧
    (∀ t, a1 ≤ t → t ≤ b1 → fmt t = c) ∧
    (∀ t, a2 ≤ t → t ≤ b2 → fmt t = c) ∧
    (∀ t, L ≤ t → t < a1 → civilCompare (fmt t) c < 0) ∧
    (∀ t, b1 < t → t < M → 0 < civilCompare (fmt t) c) ∧
    (∀ t, M ≤ t → t < a2 → civilCompare (fmt t) c < 0) ∧
    (∀ t, b2 < t → t ≤ H → 0 < civilCompare (fmt t) c)

/-- The 2024 US fall-back transition instant in America/New_York:
2024-11-03T06:00:00Z (02:00 EDT jumps back to 01:00 EST). -/
def nyFallTransition2024 : Int := dateUTC 2024 10 3 6 0

/-- Concrete offset oracle for America/New_York around the 2024 fall-back
transition: UTC-4 strictly before the transition instant, UTC-5 from it
on (the historically accurate IANA rule for that window). -/
def fmtNewYorkNov2024 (t : Int) : Civil :=
  if t < nyFallTransition2024 then civilOfInstant (t - 4 * msPerHour)
  else civilOfInstant (t - 5 * msPerHour)

/-! ## General facts about the bisection -/

set_option maxHeartbeats 2000000 in
theorem civilCompare_swap (a b : Civil) : civilCompare a b = -civilCompare b a := by
  obtain ⟨y1, m1, d1, h1, n1⟩ := a
  obtain ⟨y2, m2, d2, h2, n2⟩ := b
  simp only [civilCompare]
  split_ifs <;> omega

set_option maxHeartbeats 2000000 in
theorem civilCompare_eq_zero_iff (a b : Civil) : civilCompare a b = 0 ↔ a = b := by
  obtain ⟨y1, m1, d1, h1, n1⟩ := a
  obtain ⟨y2, m2, d2, h2, n2⟩ := b
  simp only [civilCompare, Civil.mk.injEq]
  split_ifs <;> simp_all

/-- If the oracle never reports the target fields, the `bestDate` of the loop
is never reassigned, so the initial candidate comes back unchanged. -/
theorem bisectLoop_eq_best_of_never (fmt : Int → Civil) (target : Civil)
    (hne : ∀ t, fmt t ≠ target) :
    ∀ (n : Nat) (low high best : Int),
      bisectLoop fmt target n low high best = best := by
  intro n
  induction n with
  | zero => intro low high best; rfl
  | succ k ih =>
    intro low high best
    simp only [bisectLoop]
    rw [if_neg (hne _)]
    split <;> exact ih _ _ _

/-- If none of the probed midpoints reports the target fields, the
`bestDate` of the loop is never reassigned. -/
theorem bisectLoop_eq_best_of_probes (fmt : Int → Civil) (target : Civil) :
    ∀ (n : Nat) (low high best : Int),
      (∀ p ∈ bisectProbes fmt target n low high, fmt p ≠ target) →
      bisectLoop fmt target n low high best = best := by
  intro n
  induction n with
  | zero => intro low high best _; rfl
  | succ k ih =>
    intro low high best h
    simp only [bisectLoop, bisectProbes] at h ⊢
    have hmid := h ((low + high) / 2)
    rw [if_neg]
    · split
      next hc =>
        refine ih _ _ _ ?_
        intro p hp
        exact h p (by rw [if_neg fun he => hmid (by simp [he]) he, if_pos hc]; simp [hp])
      next hc =>
        refine ih _ _ _ ?_
        intro p hp
        exact h p (by rw [if_neg fun he => hmid (by simp [he]) he, if_neg hc]; simp [hp])
    · exact fun he => hmid (by simp [if_pos he]) he

theorem minTimeViolated_false_of_nan (start : Int) (o : Option String)
    (h : ∀ s, o = some s → (parseTime s).1 = JSNum.nan) :
    minTimeViolated start o = false := by
  cases o with
  | none => rfl
  | some s =>
    simp only [minTimeViolated]
    split_ifs with he
    · rfl
    · rw [h s rfl]; simp [jsLt, jsEq]

theorem maxTimeViolated_false_of_nan (end_ : Int) (o : Option String)
    (h : ∀ s, o = some s → (parseTime s).1 = JSNum.nan) :
    maxTimeViolated end_ o = false := by
  cases o with
  | none => rfl
  | some s =>
    simp only [maxTimeViolated]
    split_ifs with he
    · rfl
    · rw [h s rfl]; simp [jsGt, jsEq]

/-! ## Claims about the range validator -/

/-- C2: `validateRange` evaluates the rules in the fixed order minDate,
maxDate, blackout, invalid-range, minDuration, maxDuration, minTime,
maxTime, short-circuiting on the first violation; in particular a range
violating both the minDate rule and the maxDuration rule yields
`min_date`, never `max_duration` — the theorem holds for every constraint
configuration containing both, whatever its other fields. -/
theorem validateRange_minDate_precedes_maxDuration
    (start end_ m : Int) (q : ℚ) (c : ConstraintConfig)
    (hmin : c.minDate = some m) (hviol : start < m)
    (_hmax : c.maxDuration = some q)
    (_hdviol : durationMinutes start end_ > q) :
    validateRange ⟨some start, some end_⟩ c = some .min_date := by
  simp [validateRange, hmin, belowMinDate, hviol]

/-- Witness for C2: a range below the min date whose 240-minute duration
also exceeds the 60-minute max duration reports `min_date`. -/
theorem validateRange_minDate_precedes_maxDuration_witness :
    validateRange ⟨some (dateUTC 2024 2 15 10 0), some (dateUTC 2024 2 15 14 0)⟩
      ⟨some (dateUTC 2024 2 20 0 0), none, none, none, none, none, some 60⟩ =
      some .min_date :=
  validateRange_minDate_precedes_maxDuration _ _ _ _ _ rfl (by decide) rfl
    (by
      have h : dateUTC 2024 2 15 14 0 - dateUTC 2024 2 15 10 0 = 14400000 := by decide
      unfold durationMinutes
      rw [h]
      norm_num)

/-- C5: a partial range (absent start or absent end) is never a validation
error: `validateRange` returns `none` unconditionally, for every
constraint configuration. -/
theorem validateRange_partial_none (r : DateTimeRange) (c : ConstraintConfig)
    (h : r.start = none ∨ r.end_ = none) : validateRange r c = none := by
  obtain ⟨s, e⟩ := r
  rcases h with h | h
  · subst h; cases e <;> rfl
  · subst h; cases s <;> rfl

/-- Witness for C5: a start-only selection validates to `none` even under
a configuration in which every constraint is present and violated. -/
theorem validateRange_partial_none_witness :
    validateRange ⟨some (dateUTC 2024 2 15 10 0), none⟩
      ⟨some 0, some 0, some "10:00", some "18:00", some [0], some 60, some 120⟩ =
      none :=
  validateRange_partial_none _ _ (Or.inr rfl)

/-- C6: a complete range with `start >= end` that passes the minDate,
maxDate and blackout rules yields `invalid_range` — the ordering check
sits after blackout and before the duration rules, so an inverted or
zero-length range never reports a duration error. -/
theorem validateRange_inverted_range (start end_ : Int) (c : ConstraintConfig)
    (h1 : belowMinDate start c.minDate = false)
    (h2 : aboveMaxDate end_ c.maxDate = false)
    (h3 : checkBlackout start end_ c.blackoutDates = false)
    (h4 : start ≥ end_) :
    validateRange ⟨some start, some end_⟩ c = some .invalid_range := by
  simp [validateRange, h1, h2, h3, h4]

/-- Witness for C6: `validate({start: 2024-03-15T14:00Z, end:
2024-03-15T10:00Z}, {})` is `invalid_range`. -/
theorem validateRange_inverted_range_witness :
    validateRange ⟨some (dateUTC 2024 2 15 14 0), some (dateUTC 2024 2 15 10 0)⟩
      noConstraints = some .invalid_range :=
  validateRange_inverted_range _ _ _ rfl rfl rfl (by decide)

/-- C7: for a well-ordered range passing the date, blackout and ordering
rules, the duration is `(end - start)` in minutes; a present `minDuration`
exceeding it yields `min_duration`, and otherwise a present `maxDuration`
below it yields `max_duration`. -/
theorem validateRange_duration_rules (start end_ : Int) (c : ConstraintConfig)
    (h1 : belowMinDate start c.minDate = false)
    (h2 : aboveMaxDate end_ c.maxDate = false)
    (h3 : checkBlackout start end_ c.blackoutDates = false)
    (h4 : start < end_) :
    (∀ q, c.minDuration = some q → durationMinutes start end_ < q →
      validateRange ⟨some start, some end_⟩ c = some .min_duration) ∧
    (belowMinDuration start end_ c.minDuration = false →
      ∀ q, c.maxDuration = some q → durationMinutes start end_ > q →
        validateRange ⟨some start, some end_⟩ c = some .max_duration) := by
  constructor
  · intro q hq hlt
    simp [validateRange, h1, h2, h3, not_le.mpr h4, belowMinDuration, hq, hlt]
  · intro h5 q hq hgt
    simp [validateRange, h1, h2, h3, not_le.mpr h4, h5, aboveMaxDuration, hq, hgt]

/-- Witness for C7: a 30-minute range against `minDurationMinutes = 60`
reports `min_duration`. -/
theorem validateRange_duration_rules_witness :
    validateRange ⟨some (dateUTC 2024 2 15 10 0), some (dateUTC 2024 2 15 10 30)⟩
      ⟨none, none, none, none, none, some 60, none⟩ = some .min_duration :=
  (validateRange_duration_rules (dateUTC 2024 2 15 10 0) (dateUTC 2024 2 15 10 30)
      ⟨none, none, none, none, none, some 60, none⟩ rfl rfl rfl (by decide)).1 60 rfl
    (by
      have h : dateUTC 2024 2 15 10 30 - dateUTC 2024 2 15 10 0 = 1800000 := by decide
      unfold durationMinutes
      rw [h]
      norm_num)

/-- C8: `isDateDisabled` is true exactly when the date is before a present
`minDate`, after a present `maxDate`, or on a blackout calendar day; it
consults no duration or time-of-day constraint (the right-hand side never
mentions them).  The second conjunct is the concrete scenario
`isDateDisabled(2024-03-15, {minDate: 2024-03-20}) == true`. -/
theorem isDateDisabled_spec :
    (∀ (date : Int) (c : ConstraintConfig),
      isDateDisabled date c = true ↔
        ((∃ m, c.minDate = some m ∧ date < m) ∨
         (∃ m, c.maxDate = some m ∧ date > m) ∨
         isBlackedOut date c.blackoutDates = true)) ∧
    isDateDisabled (dateUTC 2024 2 15 0 0)
      ⟨some (dateUTC 2024 2 20 0 0), none, none, none, none, none, none⟩ = true := by
  constructor
  · intro date c
    cases hmi : c.minDate <;> cases hma : c.maxDate <;>
      simp [isDateDisabled, belowMinDate, aboveMaxDate, hmi, hma] <;>
      split_ifs <;> simp_all
  · decide

/-- C9: a present `minTime` (resp. `maxTime`) whose hour component does
not parse as a number makes `parseTime` yield `NaN`, every comparison with
`NaN` is false, and the malformed constraint is silently unenforced:
`validateRange` (a total function — nothing throws) never returns
`min_time` (resp. `max_time`). -/
theorem validateRange_nan_time_unenforced (r : DateTimeRange) (c : ConstraintConfig) :
    ((∀ s, c.minTime = some s → (parseTime s).1 = JSNum.nan) →
      validateRange r c ≠ some .min_time) ∧
    ((∀ s, c.maxTime = some s → (parseTime s).1 = JSNum.nan) →
      validateRange r c ≠ some .max_time) := by
  obtain ⟨s, e⟩ := r
  constructor
  · intro h
    cases s <;> cases e <;> simp only [validateRange]
    · simp
    · simp
    · simp
    · rw [minTimeViolated_false_of_nan _ _ h]
      split_ifs <;> simp_all
  · intro h
    cases s <;> cases e <;> simp only [validateRange]
    · simp
    · simp
    · simp
    · rw [maxTimeViolated_false_of_nan _ _ h]
      split_ifs <;> simp_all

/-- Witness for C9: with `minTime = "abc"` the validator does not report
`min_time` on an otherwise valid range. -/
theorem validateRange_nan_time_unenforced_witness :
    validateRange ⟨some (dateUTC 2024 2 15 10 0), some (dateUTC 2024 2 15 14 0)⟩
      ⟨none, none, some "abc", none, none, none, none⟩ ≠ some .min_time :=
  (validateRange_nan_time_unenforced _ _).1
    (fun s hs => by injection hs with h; subst h; decide)

/-! ## Claims about the timezone resolver -/

theorem civilFromDays_month_bounds (z : Int) :
    1 ≤ (civilFromDays z).2.1 ∧ (civilFromDays z).2.1 ≤ 12 := by
  simp only [civilFromDays]
  split_ifs <;> constructor <;> omega

/-- Every civil reading produced by the UTC oracle has a real (0-based)
month, i.e. one strictly below 12. -/
theorem civilOfInstant_month_lt (t : Int) : (civilOfInstant t).month < 12 := by
  have h := civilFromDays_month_bounds (t / msPerDay)
  show (civilFromDays (t / msPerDay)).2.1 - 1 < 12
  omega

/-- Counterexample for C4: `createDateInTimezone` contains no validity
check at all.  The malformed input month 12 (outside 0–11) is not
rejected: against the UTC oracle the call returns an ordinary instant,
equal to the `Date.UTC` arithmetic rollover of the fields into
2025-01-10T02:30, and formatting that instant shows the reinterpreted
(rolled-over) date — resolution proceeded instead of failing. -/
theorem createDateInTimezone_rollover_counterexample :
    createDateInTimezone civilOfInstant 2024 12 10 2 30 = dateUTC 2025 0 10 2 30 ∧
    civilOfInstant (createDateInTimezone civilOfInstant 2024 12 10 2 30) =
      ⟨2025, 0, 10, 2, 30⟩ := by
  constructor <;> decide

/-- C4 amended: `createDateInTimezone` performs no validation of its civil
fields and has no `InvalidCivilDateTime` error path.  An out-of-range
month is folded arithmetically into the year by the `Date.UTC` seed
(first conjunct), and for a month-12 input the search — against any
oracle that only ever reports real months — simply runs to exhaustion and
returns that rolled-over naive seed (second conjunct). -/
theorem createDateInTimezone_no_validation :
    (∀ year month day hour minute : Int,
      dateUTC year month day hour minute =
        dateUTC (year + month / 12) (month % 12) day hour minute) ∧
    (∀ fmt : Int → Civil, (∀ t, (fmt t).month < 12) →
      ∀ year day hour minute : Int,
        createDateInTimezone fmt year 12 day hour minute =
          dateUTC year 12 day hour minute) := by
  constructor
  · intro year month day hour minute
    have h1 : month % 12 / 12 = 0 := by omega
    have h2 : month % 12 % 12 = month % 12 := by omega
    simp only [dateUTC, h1, h2, add_zero]
  · intro fmt hfmt year day hour minute
    refine bisectLoop_eq_best_of_never fmt _ ?_ 20 _ _ _
    intro t ht
    have := hfmt t
    rw [ht] at this
    exact absurd this (by norm_num)

/-- Witness for the amended C4: the month-12 input 2024-12-05 00:00,
resolved against the UTC oracle (whose months are all below 12), returns
the naive rolled-over seed instead of an error. -/
theorem createDateInTimezone_no_validation_witness :
    createDateInTimezone civilOfInstant 2024 12 5 0 0 = dateUTC 2024 12 5 0 0 :=
  createDateInTimezone_no_validation.2 civilOfInstant
    (fun t => civilOfInstant_month_lt t) 2024 5 0 0

/-- Counterexample for C3: for the spring-forward gap input
`{2024, March 10, 02:30}` in America/New_York, the instant returned by
`createDateInTimezone` is *not* the closest candidate found during the
search: its formatted civil time (2024-03-09 21:30, five hours from the
target) is strictly farther from the requested civil time than that of
some probed midpoint (the search probes instants formatting to 03:00 and
to 01:59, about half an hour away).  `bestDate` is only ever assigned on
an exact match, so the naive seed comes back instead of the best probe. -/
theorem createDateInTimezone_not_closest_counterexample :
    ¬ (∀ p ∈ createProbes fmtNewYork2024 2024 2 10 2 30,
        |civilToMs (fmtNewYork2024
            (createDateInTimezone fmtNewYork2024 2024 2 10 2 30)) -
          civilToMs ⟨2024, 2, 10, 2, 30⟩| ≤
        |civilToMs (fmtNewYork2024 p) - civilToMs ⟨2024, 2, 10, 2, 30⟩|) := by
  decide

/-- C3 amended: when no probed midpoint formats exactly to the requested
civil fields within the 20-iteration ceiling, `createDateInTimezone`
returns the naive UTC seed `Date.UTC(y, mo, d, h, mi)` unchanged (not the
closest candidate): a spring-forward gap input therefore yields a
deterministic instant rather than a failure, but that instant is the seed. -/
theorem createDateInTimezone_seed_on_no_match (fmt : Int → Civil)
    (year month day hour minute : Int)
    (h : ∀ p ∈ createProbes fmt year month day hour minute,
        fmt p ≠ (⟨year, month, day, hour, minute⟩ : Civil)) :
    createDateInTimezone fmt year month day hour minute =
      dateUTC year month day hour minute :=
  bisectLoop_eq_best_of_probes fmt _ 20 _ _ _ h

/-- Witness for the amended C3: the US spring-forward gap time
2024-03-10 02:30 in America/New_York (no probe matches — the time does
not exist) resolves to the naive seed 2024-03-10T02:30Z. -/
theorem createDateInTimezone_seed_on_no_match_witness :
    createDateInTimezone fmtNewYork2024 2024 2 10 2 30 = dateUTC 2024 2 10 2 30 :=
  createDateInTimezone_seed_on_no_match fmtNewYork2024 2024 2 10 2 30 (by decide)

/-- The bisection never leaves its window as long as the window is wide
enough to survive the remaining iterations without inverting: the result
is either the untouched `bestDate` or a midpoint probed inside
`[low, high]`. -/
theorem bisectLoop_window (fmt : Int → Civil) (target : Civil) :
    ∀ (n : Nat) (low high best : Int),
      3 * (2 ^ n - 1) ≤ high - low →
      bisectLoop fmt target n low high best = best ∨
        (low ≤ bisectLoop fmt target n low high best ∧
         bisectLoop fmt target n low high best ≤ high) := by
  intro n
  induction n with
  | zero => intro low high best _; exact Or.inl rfl
  | succ k ih =>
    intro low high best hw
    have hK : (0 : Int) < 2 ^ k := pow_pos (by norm_num) k
    rw [pow_succ] at hw
    simp only [bisectLoop]
    split_ifs with h1 h2
    · exact Or.inr ⟨by omega, by omega⟩
    · rcases ih ((low + high) / 2 + 1) high best (by omega) with h | h
      · exact Or.inl h
      · exact Or.inr ⟨by omega, h.2⟩
    · rcases ih low ((low + high) / 2 - 1) best (by omega) with h | h
      · exact Or.inl h
      · exact Or.inr ⟨h.1, by omega⟩

/-- C10: whatever the formatting oracle reports, the instant returned by
`createDateInTimezone` lies within the bounded ±24 h search window around
the naive UTC seed `Date.UTC(year, month, day, hour, minute)`: it is
either the seed itself or a midpoint probed inside that window, and 20
iterations cannot drive a 172 800 000 ms wide window past inversion. -/
theorem createDateInTimezone_within_window (fmt : Int → Civil)
    (year month day hour minute : Int) :
    dateUTC year month day hour minute - 24 * 60 * 60 * 1000 ≤
      createDateInTimezone fmt year month day hour minute ∧
    createDateInTimezone fmt year month day hour minute ≤
      dateUTC year month day hour minute + 24 * 60 * 60 * 1000 := by
  have h := bisectLoop_window fmt ⟨year, month, day, hour, minute⟩ 20
    (dateUTC year month day hour minute - 24 * 60 * 60 * 1000)
    (dateUTC year month day hour minute + 24 * 60 * 60 * 1000)
    (dateUTC year month day hour minute) (by norm_num)
  have he : createDateInTimezone fmt year month day hour minute =
      bisectLoop fmt ⟨year, month, day, hour, minute⟩ 20
        (dateUTC year month day hour minute - 24 * 60 * 60 * 1000)
        (dateUTC year month day hour minute + 24 * 60 * 60 * 1000)
        (dateUTC year month day hour minute) := rfl
  rw [he]
  rcases h with h | h
  · rw [h]; omega
  · exact h

/-- Bisection correctness, single-occurrence case: if inside `[L, H]` the
oracle reads `c` exactly on `[a, b]`, below `c` before it and above `c`
after it (only the comparison sign is constrained — the oracle itself
need not be monotone, so a fall-back jump elsewhere in the window is
allowed), and the remaining fuel `n` satisfies
`high - low < 2 ^ n * (b - a + 1) - 1`, then the search window (which
always contains `[a, b]`) must probe a point of `[a, b]` before the fuel
runs out, so the result reads `c`. -/
theorem bisectLoop_finds_plateau (fmt : Int → Civil) (c : Civil)
    (L H a b : Int)
    (hab : a ≤ b)
    (hplateau : ∀ t, a ≤ t → t ≤ b → fmt t = c)
    (hneg : ∀ t, L ≤ t → t < a → civilCompare (fmt t) c < 0)
    (hpos : ∀ t, b < t → t ≤ H → 0 < civilCompare (fmt t) c) :
    ∀ (n : Nat) (low high best : Int),
      L ≤ low → low ≤ a → b ≤ high → high ≤ H →
      high - low < 2 ^ n * (b - a + 1) - 1 →
      fmt (bisectLoop fmt c n low high best) = c := by
  intro n
  induction n with
  | zero =>
    intro low high best hL hla hbh hH hw
    rw [pow_zero] at hw
    exact absurd hw (by omega)
  | succ k ih =>
    intro low high best hL hla hbh hH hw
    have hK : (0 : Int) < 2 ^ k := pow_pos (by norm_num) k
    have hP : (0 : Int) < 2 ^ k * (b - a + 1) := mul_pos hK (by omega)
    rw [pow_succ] at hw
    have hee : (2 : Int) ^ k * 2 * (b - a + 1) = 2 * (2 ^ k * (b - a + 1)) := by
      ring
    rw [hee] at hw
    simp only [bisectLoop]
    split_ifs with h1 h2
    · exact h1
    · have hma : (low + high) / 2 < a := by
        by_contra hc
        push_neg at hc
        rcases le_or_lt ((low + high) / 2) b with hmb | hbm
        · exact h1 (hplateau _ hc hmb)
        · have h3 := hpos ((low + high) / 2) hbm (by omega)
          omega
      exact ih ((low + high) / 2 + 1) high best (by omega) (by omega) hbh hH
        (by omega)
    · have hmb : b < (low + high) / 2 := by
        by_contra hc
        push_neg at hc
        rcases le_or_lt a ((low + high) / 2) with ham | hma
        · exact h1 (hplateau _ ham hc)
        · have h3 := hneg ((low + high) / 2) (by omega) hma
          omega
      exact ih low ((low + high) / 2 - 1) best hL hla (by omega) (by omega)
        (by omega)

/-- Bisection correctness, fall-back overlap case: the window always
contains one of the two full plateaus of instants reading `c` (with two
side invariants about where `low` and `high` can sit relative to the
backward jump at `M`), so with enough fuel for the initial width a probe
must land in a plateau and the result reads `c`. -/
theorem bisectLoop_finds_plateau_overlap (fmt : Int → Civil) (c : Civil)
    (L H a1 b1 M a2 b2 : Int)
    (hb1M : b1 < M) (hMa2 : M ≤ a2)
    (hwd1 : 59999 ≤ b1 - a1) (hwd2 : 59999 ≤ b2 - a2)
    (hp1 : ∀ t, a1 ≤ t → t ≤ b1 → fmt t = c)
    (hp2 : ∀ t, a2 ≤ t → t ≤ b2 → fmt t = c)
    (hn1 : ∀ t, L ≤ t → t < a1 → civilCompare (fmt t) c < 0)
    (hq1 : ∀ t, b1 < t → t < M → 0 < civilCompare (fmt t) c)
    (hn2 : ∀ t, M ≤ t → t < a2 → civilCompare (fmt t) c < 0)
    (hq2 : ∀ t, b2 < t → t ≤ H → 0 < civilCompare (fmt t) c) :
    ∀ (n : Nat) (low high best : Int),
      L ≤ low → high ≤ H →
      (low ≤ a1 ∨ M ≤ low) →
      (b2 ≤ high ∨ high < M) →
      ((low ≤ a1 ∧ b1 ≤ high) ∨ (low ≤ a2 ∧ b2 ≤ high)) →
      high - low < 2 ^ n * 60000 - 1 →
      fmt (bisectLoop fmt c n low high best) = c := by
  intro n
  induction n with
  | zero =>
    intro low high best _ _ _ _ hcont hw
    rw [pow_zero] at hw
    rcases hcont with ⟨x1, x2⟩ | ⟨x1, x2⟩ <;> exact absurd hw (by omega)
  | succ k ih =>
    intro low high best hL hH hlowinv hhighinv hcont hw
    have hK : (0 : Int) < 2 ^ k := pow_pos (by norm_num) k
    rw [pow_succ] at hw
    have hee : (2 : Int) ^ k * 2 * 60000 = 2 * (2 ^ k * 60000) := by ring
    rw [hee] at hw
    have hlh : low ≤ high := by
      rcases hcont with ⟨x1, x2⟩ | ⟨x1, x2⟩ <;> omega
    simp only [bisectLoop]
    split_ifs with h1 h2
    · exact h1
    · by_cases hc1 : (low + high) / 2 < a1
      · refine ih ((low + high) / 2 + 1) high best (by omega) hH (by left; omega)
          hhighinv ?_ (by omega)
        rcases hcont with ⟨x1, x2⟩ | ⟨x1, x2⟩
        · exact Or.inl ⟨by omega, x2⟩
        · exact Or.inr ⟨by omega, x2⟩
      · push_neg at hc1
        have hnotp1 : ¬ ((low + high) / 2 ≤ b1) := fun hmb => h1 (hp1 _ hc1 hmb)
        push_neg at hnotp1
        have hgeM : M ≤ (low + high) / 2 := by
          by_contra hcM
          push_neg at hcM
          have := hq1 ((low + high) / 2) hnotp1 hcM
          omega
        have hlta2 : (low + high) / 2 < a2 := by
          by_contra hca
          push_neg at hca
          rcases le_or_lt ((low + high) / 2) b2 with hmb | hbm
          · exact h1 (hp2 _ hca hmb)
          · have := hq2 ((low + high) / 2) hbm (by omega)
            omega
        have hb2high : b2 ≤ high := by
          rcases hhighinv with hx | hx
          · exact hx
          · exfalso; omega
        refine ih ((low + high) / 2 + 1) high best (by omega) hH (by right; omega)
          hhighinv (Or.inr ⟨by omega, hb2high⟩) (by omega)
    · by_cases hc1 : b2 < (low + high) / 2
      · refine ih low ((low + high) / 2 - 1) best hL (by omega) hlowinv
          (by left; omega) ?_ (by omega)
        rcases hcont with ⟨x1, x2⟩ | ⟨x1, x2⟩
        · exact Or.inl ⟨x1, by omega⟩
        · exact Or.inr ⟨x1, by omega⟩
      · push_neg at hc1
        have hlta2 : (low + high) / 2 < a2 := by
          by_contra hca
          push_neg at hca
          exact h1 (hp2 _ hca hc1)
        have hltM : (low + high) / 2 < M := by
          by_contra hcM
          push_neg at hcM
          have := hn2 ((low + high) / 2) hcM hlta2
          omega
        have hgtb1 : b1 < (low + high) / 2 := by
          by_contra hcb
          push_neg at hcb
          rcases le_or_lt a1 ((low + high) / 2) with ham | hma
          · exact h1 (hp1 _ ham hcb)
          · have := hn1 ((low + high) / 2) (by omega) hma
            omega
        have hlowa1 : low ≤ a1 := by
          rcases hlowinv with hx | hx
          · exact hx
          · exfalso; omega
        refine ih low ((low + high) / 2 - 1) best hL (by omega) hlowinv
          (by right; omega) (Or.inl ⟨hlowa1, by omega⟩) (by omega)

set_option maxHeartbeats 2000000 in
theorem civilCompare_neg_of (y1 m1 d1 h1 n1 y2 m2 d2 h2 n2 : Int)
    (h : y1 < y2 ∨ (y1 = y2 ∧ (m1 < m2 ∨ (m1 = m2 ∧ (d1 < d2 ∨ (d1 = d2 ∧
      (h1 < h2 ∨ (h1 = h2 ∧ n1 < n2)))))))) :
    civilCompare ⟨y1, m1, d1, h1, n1⟩ ⟨y2, m2, d2, h2, n2⟩ < 0 := by
  simp only [civilCompare]
  split_ifs <;> omega

set_option maxHeartbeats 2000000 in
theorem civilCompare_pos_of (y1 m1 d1 h1 n1 y2 m2 d2 h2 n2 : Int)
    (h : y2 < y1 ∨ (y1 = y2 ∧ (m2 < m1 ∨ (m1 = m2 ∧ (d2 < d1 ∨ (d1 = d2 ∧
      (h2 < h1 ∨ (h1 = h2 ∧ n2 < n1)))))))) :
    0 < civilCompare ⟨y1, m1, d1, h1, n1⟩ ⟨y2, m2, d2, h2, n2⟩ := by
  simp only [civilCompare]
  split_ifs <;> omega

/-- Unfolds the UTC oracle once the calendar date of the instant is known
(0-based month `m`). -/
theorem civilOfInstant_eq (t y m d : Int)
    (h : civilFromDays (t / msPerDay) = (y, m + 1, d)) :
    civilOfInstant t = ⟨y, m, d, getUTCHours t, getUTCMinutes t⟩ := by
  simp only [civilOfInstant, h, Int.add_sub_cancel]

/-- The UTC oracle reads every instant of a civil minute identically: all
its fields are functions of the minute index, since minute intervals never
straddle a day or hour boundary. -/
theorem civilOfInstant_minute_stable (t1 t2 : Int) (h : t1 / 60000 = t2 / 60000) :
    civilOfInstant t1 = civilOfInstant t2 := by
  have hd : t1 / 86400000 = t2 / 86400000 := by omega
  have hh : t1 / 3600000 = t2 / 3600000 := by omega
  simp only [civilOfInstant, getUTCHours, getUTCMinutes, msPerDay, msPerHour,
    msPerMinute]
  rw [hd, hh, h]

/-- C1: round-trip.  For every civil reading and oracle such that the
reading is actually attained in the search window — occurring once (with
every other window instant reading below it or above it: this covers a
transition-free window, a spring-forward window, and a fall-back window in
which the reading is not one of the repeated times) or occurring twice (a
fall-back overlap, two full-minute plateaus) — the instant produced by
`createDateInTimezone` formats back, via `instantToCivil`, to exactly the
original civil fields.  A spring-forward gap reading satisfies neither
hypothesis, matching the exclusion in the claim. -/
theorem createDateInTimezone_roundtrip (fmt : Int → Civil)
    (year month day hour minute : Int)
    (h : SingleOccurrenceInWindow fmt
          (dateUTC year month day hour minute - 24 * 60 * 60 * 1000)
          (dateUTC year month day hour minute + 24 * 60 * 60 * 1000)
          ⟨year, month, day, hour, minute⟩ ∨
        FallBackOverlapInWindow fmt
          (dateUTC year month day hour minute - 24 * 60 * 60 * 1000)
          (dateUTC year month day hour minute + 24 * 60 * 60 * 1000)
          ⟨year, month, day, hour, minute⟩) :
    instantToCivil fmt (createDateInTimezone fmt year month day hour minute) =
      ⟨year, month, day, hour, minute⟩ := by
  have he : createDateInTimezone fmt year month day hour minute =
      bisectLoop fmt ⟨year, month, day, hour, minute⟩ 20
        (dateUTC year month day hour minute - 24 * 60 * 60 * 1000)
        (dateUTC year month day hour minute + 24 * 60 * 60 * 1000)
        (dateUTC year month day hour minute) := rfl
  show fmt (createDateInTimezone fmt year month day hour minute) = _
  rw [he]
  rcases h with ⟨a, b, h1, h2, h3, h4, h5, h6, h7⟩ |
    ⟨a1, b1, M, a2, b2, g1, g2, g3, g4, g5, g6, g7, g8, g9, g10, g11, g12, g13, g14⟩
  · refine bisectLoop_finds_plateau fmt _ _ _ a b h2 h5 h6 h7 20 _ _ _
      le_rfl h1 h3 le_rfl ?_
    have h20 : (2 : Int) ^ 20 * (b - a + 1) = 1048576 * (b - a + 1) := by norm_num
    omega
  · refine bisectLoop_finds_plateau_overlap fmt _ _ _ a1 b1 M a2 b2
      g4 g5 g3 g7 g9 g10 g11 g12 g13 g14 20 _ _ _
      le_rfl le_rfl (Or.inl g1) (Or.inl g8) (Or.inl ⟨g1, by omega⟩) ?_
    have h20 : (2 : Int) ^ 20 * 60000 = 62914560000 := by norm_num
    omega

/-- Witness for C1: the civil time 10:00 on 2024-11-03 in
America/New_York.  The time itself is unambiguous (it occurs exactly once,
on the minute starting 2024-11-03T15:00:00Z), but the ±24 h search window
around the naive seed 2024-11-03T10:00:00Z contains the fall-back jump at
06:00:00Z, so the oracle is *not* monotone on the window — only the
comparison sign against the target is, which is what the round-trip
theorem needs.  The instant resolved by `createDateInTimezone` formats
back to exactly 10:00 on 2024-11-03. -/
theorem createDateInTimezone_roundtrip_witness :
    instantToCivil fmtNewYorkNov2024
      (createDateInTimezone fmtNewYorkNov2024 2024 10 3 10 0) =
      ⟨2024, 10, 3, 10, 0⟩ :=
  createDateInTimezone_roundtrip fmtNewYorkNov2024 2024 10 3 10 0
    (Or.inl ⟨1730646000000, 1730646059999, by decide, by decide, by decide,
      by decide,
      fun t h1 h2 => by
        have hT : nyFallTransition2024 = 1730613600000 := by decide
        simp only [fmtNewYorkNov2024, msPerHour]
        rw [hT, if_neg (by omega)]
        have hs : civilOfInstant (t - 5 * 3600000) =
            civilOfInstant 1730628000000 :=
          civilOfInstant_minute_stable _ _ (by omega)
        rw [hs]
        decide,
      fun t h1 h2 => by
        have hL : dateUTC 2024 10 3 10 0 - 24 * 60 * 60 * 1000 = 1730541600000 := by
          decide
        rw [hL] at h1
        have hT : nyFallTransition2024 = 1730613600000 := by decide
        simp only [fmtNewYorkNov2024, msPerHour]
        rw [hT]
        by_cases ht : t < 1730613600000
        · rw [if_pos ht]
          have hd : (t - 4 * 3600000) / 86400000 = 20029 ∨
              (t - 4 * 3600000) / 86400000 = 20030 := by omega
          rcases hd with hd | hd
          · rw [civilOfInstant_eq _ 2024 10 2
              (by simp only [msPerDay]; rw [hd]; decide)]
            exact civilCompare_neg_of _ _ _ _ _ _ _ _ _ _
              (Or.inr ⟨rfl, Or.inr ⟨rfl, Or.inl (by norm_num)⟩⟩)
          · rw [civilOfInstant_eq _ 2024 10 3
              (by simp only [msPerDay]; rw [hd]; decide)]
            have hh : getUTCHours (t - 4 * 3600000) < 10 := by
              simp only [getUTCHours, msPerHour]; omega
            exact civilCompare_neg_of _ _ _ _ _ _ _ _ _ _
              (Or.inr ⟨rfl, Or.inr ⟨rfl, Or.inr ⟨rfl, Or.inl hh⟩⟩⟩)
        · rw [if_neg ht]
          push_neg at ht
          have hd : (t - 5 * 3600000) / 86400000 = 20030 := by omega
          rw [civilOfInstant_eq _ 2024 10 3
            (by simp only [msPerDay]; rw [hd]; decide)]
          have hh : getUTCHours (t - 5 * 3600000) < 10 := by
            simp only [getUTCHours, msPerHour]; omega
          exact civilCompare_neg_of _ _ _ _ _ _ _ _ _ _
            (Or.inr ⟨rfl, Or.inr ⟨rfl, Or.inr ⟨rfl, Or.inl hh⟩⟩⟩),
      fun t h1 h2 => by
        have hH : dateUTC 2024 10 3 10 0 + 24 * 60 * 60 * 1000 = 1730714400000 := by
          decide
        rw [hH] at h2
        have hT : nyFallTransition2024 = 1730613600000 := by decide
        simp only [fmtNewYorkNov2024, msPerHour]
        rw [hT, if_neg (by omega)]
        have hd : (t - 5 * 3600000) / 86400000 = 20030 ∨
            (t - 5 * 3600000) / 86400000 = 20031 := by omega
        rcases hd with hd | hd
        · rw [civilOfInstant_eq _ 2024 10 3
            (by simp only [msPerDay]; rw [hd]; decide)]
          have hcase : 10 < getUTCHours (t - 5 * 3600000) ∨
              (getUTCHours (t - 5 * 3600000) = 10 ∧
                0 < getUTCMinutes (t - 5 * 3600000)) := by
            simp only [getUTCHours, getUTCMinutes, msPerHour, msPerMinute]; omega
          rcases hcase with hc | ⟨hc1, hc2⟩
          · exact civilCompare_pos_of _ _ _ _ _ _ _ _ _ _
              (Or.inr ⟨rfl, Or.inr ⟨rfl, Or.inr ⟨rfl, Or.inl hc⟩⟩⟩)
          · exact civilCompare_pos_of _ _ _ _ _ _ _ _ _ _
              (Or.inr ⟨rfl, Or.inr ⟨rfl, Or.inr ⟨rfl, Or.inr ⟨hc1, hc2⟩⟩⟩⟩)
        · rw [civilOfInstant_eq _ 2024 10 4
            (by simp only [msPerDay]; rw [hd]; decide)]
          exact civilCompare_pos_of _ _ _ _ _ _ _ _ _ _
            (Or.inr ⟨rfl, Or.inr ⟨rfl, Or.inl (by norm_num)⟩⟩)⟩)

end DTRP
